import Mathlib

/-!
Shallow embedding of the sprite-sheet animation core of the XULIEZHEN
repository: grid addressing, per-frame offset editing, frame compositing,
chroma-key transparency, the playback clock and the GIF assembly pipeline,
together with theorems settling the specification claims.

Pixel channels are naturals, JS numbers that can be fractional (cell sizes,
time stamps) are rationals, and JS `Math.floor` is `Int.floor`.
-/

namespace XULIEZHEN

/-- Traversal direction of the sprite grid (`direction: 'row' | 'column'`
in `types.ts`). -/
inductive Direction where
  | row
  | column
deriving DecidableEq, Repr

/-- A per-frame pixel offset (`{ x: number; y: number }` in
`SpriteConfig.frameOffsets`). The code only ever stores integers
(nudges of ±1 accumulated). -/
structure Offset where
  x : Int
  y : Int
deriving DecidableEq, Repr

/-- The sprite configuration (`SpriteConfig` in `types.ts`).
`frameOffsets` is the JS record `Record<number, {x,y}>` modelled as a
partial map; `excludedFrames` is the JS array `number[]`. -/
structure SpriteConfig where
  rows : Nat
  cols : Nat
  totalFrames : Nat
  fps : Nat
  scale : Nat
  autoTransparent : Bool
  direction : Direction
  frameOffsets : Nat → Option Offset
  excludedFrames : List Nat

/-- `ImageDimensions` in `types.ts`. Widths and heights are JS numbers;
the code divides them by `cols`/`rows`, so we embed them as rationals. -/
structure ImageDimensions where
  width : Rat
  height : Rat
deriving DecidableEq, Repr

/-- The index → (row, col) mapping duplicated verbatim in
`SplitFrameEditor` (part_001 lines 129–136), `FrameEditorModal`,
`PreviewPlayer` and `generateGif` (part_002 lines 1553–1560):
for `'column'` direction `row = index % rows`, `col = ⌊index / rows⌋`;
otherwise `col = index % cols`, `row = ⌊index / cols⌋`. -/
def indexToCell (direction : Direction) (rows cols index : Nat) : Nat × Nat :=
  match direction with
  | .column => (index % rows, index / rows)
  | .row => (index / cols, index % cols)

/-! ## FrameEditStore: the offset map mutations

`handleNudge` / `updateFrameOffset` (part_001 lines 30–43,
FrameEditorModal.tsx lines 38–50) and `handleResetOffset` /
`resetFrameOffset` (part_001 lines 45–51, FrameEditorModal.tsx
lines 52–56). -/

/-- Lookup with the code's defaulting idiom
`config.frameOffsets?.[index] || { x: 0, y: 0 }`. -/
def getOffset (offsets : Nat → Option Offset) (index : Nat) : Offset :=
  (offsets index).getD ⟨0, 0⟩

/-- `handleNudge` / `updateFrameOffset`: reads the current offset
(defaulting to `(0,0)`) and stores `current + (dx, dy)` under `index`,
leaving every other key unchanged (the JS spread `{...offsets, [index]: …}`). -/
def setOffset (offsets : Nat → Option Offset) (index : Nat) (dx dy : Int) :
    Nat → Option Offset :=
  fun j =>
    if j = index then
      let current := getOffset offsets index
      some ⟨current.x + dx, current.y + dy⟩
    else offsets j

/-- `handleResetOffset` / `resetFrameOffset`: `delete newOffsets[index]`,
removing the entry entirely. -/
def resetOffset (offsets : Nat → Option Offset) (index : Nat) :
    Nat → Option Offset :=
  fun j => if j = index then none else offsets j

/-! ## FrameCompositor

`generateGif` (part_002 lines 1540–1574) and `PreviewPlayer`
(FrameEditorModal.tsx lines 230–259) compute a per-frame sample origin and
copy a `frameWidth × frameHeight` rectangle with `drawImage`; coordinates
outside the source image are left as the canvas background: fully
transparent after `clearRect`, or white when `autoTransparent` pre-fills
the canvas with `#ffffff`. -/

/-- An RGBA pixel; channels are the 0–255 bytes of `ImageData`. -/
structure Pixel where
  r : Nat
  g : Nat
  b : Nat
  a : Nat
deriving DecidableEq, Repr

/-- The canvas state after `clearRect`: all-zero RGBA. -/
def transparentPixel : Pixel := ⟨0, 0, 0, 0⟩

/-- The `#ffffff` fill used when `config.autoTransparent` is set. -/
def whitePixel : Pixel := ⟨255, 255, 255, 255⟩

/-- The sample origin computed by `generateGif` (part_002 lines 1553–1566):
resolve `(row, col)` by direction, then
`sourceX = col*frameWidth - offset.x`, `sourceY = row*frameHeight - offset.y`
with `frameWidth = width/cols`, `frameHeight = height/rows`. -/
def sampleOrigin (config : SpriteConfig) (dims : ImageDimensions)
    (index : Nat) : Rat × Rat :=
  let frameWidth := dims.width / config.cols
  let frameHeight := dims.height / config.rows
  let cell := indexToCell config.direction config.rows config.cols index
  let offset := getOffset config.frameOffsets index
  (cell.2 * frameWidth - offset.x, cell.1 * frameHeight - offset.y)

/-- The same computation transcribed from the second call site,
`PreviewPlayer` in FrameEditorModal.tsx lines 230–251 (`sourceX =
(col * frameWidth) - offset.x`, `sourceY = (row * frameHeight) - offset.y`). -/
def previewSampleOrigin (config : SpriteConfig) (dims : ImageDimensions)
    (index : Nat) : Rat × Rat :=
  let frameWidth := dims.width / config.cols
  let frameHeight := dims.height / config.rows
  let cell := indexToCell config.direction config.rows config.cols index
  let offset := getOffset config.frameOffsets index
  (cell.2 * frameWidth - offset.x, cell.1 * frameHeight - offset.y)

/-- One output pixel of the composited frame: `clearRect` (and the optional
white pre-fill), then `drawImage(image, sourceX, sourceY, w, h, 0, 0, w, h)`.
`drawImage` clips the source rectangle to the image, so a destination
coordinate whose sample point falls outside `[0,width) × [0,height)`
keeps the canvas background. -/
def compositeAt (img : Rat → Rat → Pixel) (config : SpriteConfig)
    (dims : ImageDimensions) (index : Nat) (px py : Rat) : Pixel :=
  let origin := sampleOrigin config dims index
  let x := origin.1 + px
  let y := origin.2 + py
  if 0 ≤ x ∧ x < dims.width ∧ 0 ≤ y ∧ y < dims.height then
    img x y
  else if config.autoTransparent then whitePixel else transparentPixel

/-! ## ChromaKeyTransparency

`applyChromaKey` (part_002 lines 1458–1492). -/

/-- Magenta, `KEY_COLOR_RGB = [255, 0, 255]`, written at alpha 255. -/
def keyColorPixel : Pixel := ⟨255, 0, 255, 255⟩

/-- The rewrite condition of `applyChromaKey` for one pixel given the
background reference: every channel within the tolerance of 20
(`Math.abs(c - cBg) < tolerance`) or alpha below 10 (`a < 10`). -/
def matchesKey (bg p : Pixel) : Prop :=
  (((p.r : Int) - bg.r).natAbs < 20 ∧ ((p.g : Int) - bg.g).natAbs < 20 ∧
    ((p.b : Int) - bg.b).natAbs < 20) ∨ p.a < 10

instance (bg p : Pixel) : Decidable (matchesKey bg p) := by
  unfold matchesKey; infer_instance

/-- The per-pixel body of the `applyChromaKey` loop: rewrite a matching
pixel to magenta at full opacity, pass every other pixel through. -/
def keyPixel (bg p : Pixel) : Pixel :=
  if matchesKey bg p then keyColorPixel else p

/-- `applyChromaKey`: sample the top-left pixel (`data[0..2]`) as the
background reference, then rewrite every pixel of the buffer with
`keyPixel`. On an empty buffer the loop body never runs. -/
def applyChromaKey (data : List Pixel) : List Pixel :=
  match data with
  | [] => []
  | bg :: _ => data.map (keyPixel bg)

/-! ## PlaybackClock

`PreviewPlayer` (FrameEditorModal.tsx lines 188–225): `getValidFrames`
collects `i` from `0` to `totalFrames - 1` with
`!config.excludedFrames.includes(i)`; the animation callback computes
`stepIndex = Math.floor(time / (1000 / fps)) % validFrames.length` and
renders `validFrames[stepIndex]`, or clears the canvas when the list is
empty. `time` is a DOMHighResTimeStamp, hence nonnegative. -/

/-- `getValidFrames` in `PreviewPlayer`. -/
def getValidFrames (config : SpriteConfig) : List Nat :=
  (List.range config.totalFrames).filter
    (fun i => !(config.excludedFrames.contains i))

/-- `frameInterval = 1000 / config.fps` (milliseconds per frame). -/
def frameInterval (config : SpriteConfig) : Rat :=
  1000 / (config.fps : Rat)

/-- The frame rendered by the animation callback at timestamp `time`:
`none` when no valid frames remain (the canvas is cleared), otherwise
`validFrames[⌊time / frameInterval⌋ % validFrames.length]`. -/
def activeFrame (config : SpriteConfig) (time : Rat) : Option Nat :=
  let validFrames := getValidFrames config
  if validFrames.length = 0 then none
  else validFrames[(⌊time / frameInterval config⌋).toNat % validFrames.length]?

/-! ## AssemblyPipeline

`generateGif` (part_002 lines 1494–1594): collect the non-excluded frame
indices below `totalFrames` in ascending order, reject with
`"No valid frames to render"` when none remain, otherwise submit each
frame to the GIF encoder with delay `1000 / fps`. The encoder is
constructed with `width = dimensions.width / config.cols` and
`height = dimensions.height / config.rows`; the scratch canvas's
`width`/`height` IDL attributes truncate those values to integers once,
before the frame loop. -/

/-- One `gif.addFrame(ctx, { copy: true, delay: 1000 / config.fps })`
submission. -/
structure Submission where
  frameIndex : Nat
  delay : Rat
deriving DecidableEq, Repr

/-- What `generateGif` hands to the codec on success: the encoder
dimensions, the (single, shared) scratch-canvas pixel dimensions, and the
ordered frame submissions. -/
structure GifSpec where
  width : Rat
  height : Rat
  canvasWidth : Nat
  canvasHeight : Nat
  frames : List Submission
deriving DecidableEq, Repr

/-- The `framesToRender` loop of `generateGif` (part_002 lines 1528–1533):
`i` from `0` to `totalFrames - 1`, kept when
`!config.excludedFrames?.includes(i)`. -/
def framesToRender (config : SpriteConfig) : List Nat :=
  (List.range config.totalFrames).filter
    (fun i => !(config.excludedFrames.contains i))

/-- `generateGif` control flow (part_002 lines 1502–1592), with the
external encoder abstracted away: fail with the no-frames error when every
frame is excluded, otherwise submit every remaining frame in order with
delay `1000 / fps`. The per-frame pixel work is `compositeAt` (and
`applyChromaKey` when `autoTransparent`), which act on the scratch canvas
and do not change the submission list. -/
def generateGif (config : SpriteConfig) (dims : ImageDimensions) :
    Except String GifSpec :=
  let frameWidth := dims.width / config.cols
  let frameHeight := dims.height / config.rows
  let frames := framesToRender config
  if frames.length = 0 then .error "No valid frames to render"
  else
    .ok
      { width := frameWidth
        height := frameHeight
        canvasWidth := ⌊frameWidth⌋.toNat
        canvasHeight := ⌊frameHeight⌋.toNat
        frames := frames.map (fun i => ⟨i, 1000 / (config.fps : Rat)⟩) }

/-! ## retryOperation

`retryOperation` (part_003 lines 6–24): try the operation; on an error
that is transient (HTTP 503/500 or an "overloaded" message), sleep for
`delay` and recurse with `retries - 1` and `delay * 2` while `retries > 0`;
rethrow otherwise. Defaults: `retries = 3`, `delay = 1000`. -/

/-- The outcome of one invocation of the wrapped operation: success, or an
error already classified by the `isTransient` test of the code. -/
inductive Outcome (T : Type) where
  | success (value : T)
  | failure (transient : Bool)
deriving DecidableEq, Repr

/-- The trace of a `retryOperation` run: how many times the operation was
invoked, the sleep delays performed (in ms, in order), and the final
outcome. -/
structure RetryTrace (T : Type) where
  attempts : Nat
  delays : List Rat
  result : Outcome T
deriving DecidableEq, Repr

/-- `retryOperation(operation, retries, delay)`: `op n` is the outcome of
the `n`-th invocation (0-based). -/
def retryOperation {T : Type} (op : Nat → Outcome T) :
    Nat → Rat → Nat → RetryTrace T
  | retries, delay, attempt =>
    match op attempt with
    | .success v => ⟨1, [], .success v⟩
    | .failure transient =>
      if transient then
        match retries with
        | 0 => ⟨1, [], .failure transient⟩
        | r + 1 =>
          let rest := retryOperation op r (delay * 2) (attempt + 1)
          ⟨rest.attempts + 1, delay :: rest.delays, rest.result⟩
      else ⟨1, [], .failure transient⟩

/-- `retryOperation` at its default arguments `retries = 3`,
`delay = 1000`. -/
def retryOperationDefault {T : Type} (op : Nat → Outcome T) : RetryTrace T :=
  retryOperation op 3 1000 0

/-! ## Groups, exported assets and `deleteGroup`

`App` state (part_002): `groups : Record<string, NodeGroup>`,
`nodes : CanvasNodeData[]`, `selectedGroupId`, and the assets-manager list
`savedAssets : SavedAsset[]`. `generateGifAsset` (part_002 lines 692–727)
prepends a `SavedAsset` whose name embeds the first four characters of the
group id; `deleteGroup` (part_002 lines 128–135) removes the group record,
filters the canvas nodes, and clears the selection. -/

/-- `AssetType` in `types.ts`. -/
inductive AssetType where
  | gif
  | sheet
deriving DecidableEq, Repr

/-- `SavedAsset` in `types.ts`: no field refers back to a group; the only
association is the group-id prefix baked into `name`. -/
structure SavedAsset where
  id : String
  type : AssetType
  url : String
  name : String
  timestamp : Nat
  dimensions : ImageDimensions
deriving DecidableEq, Repr

/-- `NodeGroup` in `types.ts` (the fields this development uses). -/
structure NodeGroup where
  id : String
  imageUrl : Option String
  dimensions : ImageDimensions
  config : SpriteConfig

/-- `CanvasNodeData` (the fields `deleteGroup` touches). -/
structure CanvasNodeData where
  id : String
  groupId : String
deriving DecidableEq, Repr

/-- The `App` component state that `deleteGroup` and `generateGifAsset`
read and write. -/
structure AppState where
  groups : String → Option NodeGroup
  nodes : List CanvasNodeData
  selectedGroupId : Option String
  savedAssets : List SavedAsset

/-- `generateGifAsset` (part_002 lines 692–727), success path: build the
asset record named `sprite-<first 4 chars of group id>.gif` and prepend it
to `savedAssets` (`setSavedAssets(prev => [newAsset, ...prev])`). -/
def gifAssetFor (group : NodeGroup) (assetId url : String)
    (now : Nat) : SavedAsset :=
  { id := assetId
    type := .gif
    url := url
    name := "sprite-" ++ (group.id.take 4) ++ ".gif"
    timestamp := now
    dimensions := group.dimensions }

/-- The state update performed by `generateGifAsset` on success. -/
def addGifAsset (s : AppState) (group : NodeGroup) (assetId url : String)
    (now : Nat) : AppState :=
  { s with savedAssets := gifAssetFor group assetId url now :: s.savedAssets }

/-- `deleteGroup` (part_002 lines 128–135): `delete newGroups[groupId]`,
filter the nodes whose `groupId` matches, and clear the selection when it
pointed at the deleted group. No other state is touched. -/
def deleteGroup (s : AppState) (groupId : String) : AppState :=
  { s with
    groups := fun k => if k = groupId then none else s.groups k
    nodes := s.nodes.filter (fun n => n.groupId ≠ groupId)
    selectedGroupId :=
      if s.selectedGroupId = some groupId then none else s.selectedGroupId }

/-! ## Theorems -/

/-- C1: for every `rows ≥ 1`, `cols ≥ 1` and index in `[0, rows*cols)`,
row-major addressing gives `col = index % cols`, `row = ⌊index / cols⌋`,
column-major gives `row = index % rows`, `col = ⌊index / rows⌋`; on a 2×2
grid with column-major direction, indices 0,1,2,3 map to cells
(0,0), (1,0), (0,1), (1,1). -/
theorem grid_addressing_formulas (rows cols index : Nat)
    (hrows : 1 ≤ rows) (hcols : 1 ≤ cols) (hindex : index < rows * cols) :
    indexToCell .row rows cols index = (index / cols, index % cols) ∧
    indexToCell .column rows cols index = (index % rows, index / rows) ∧
    (indexToCell .column 2 2 0 = (0, 0) ∧ indexToCell .column 2 2 1 = (1, 0) ∧
      indexToCell .column 2 2 2 = (0, 1) ∧ indexToCell .column 2 2 3 = (1, 1)) :=
  ⟨rfl, rfl, by decide⟩

/-- Witness for C1 at `rows = cols = 2`, `index = 1`, column-major. -/
theorem grid_addressing_formulas_witness :
    indexToCell .column 2 2 1 = (1, 0) :=
  (grid_addressing_formulas 2 2 1 (by decide) (by decide) (by decide)).2.2.2.1

/-- C6: `setOffset` adds `(dx, dy)` to the existing offset (an absent entry
counting as `(0,0)`), repeated nudges accumulate, `resetOffset` removes the
entry entirely, and compositing a frame after a nudge followed by a reset is
identical to compositing the never-modified frame. -/
theorem offset_nudge_accumulates_and_roundtrips
    (offsets : Nat → Option Offset) (index : Nat) (dx dy dx' dy' : Int)
    (img : Rat → Rat → Pixel) (config : SpriteConfig)
    (dims : ImageDimensions) (px py : Rat) :
    getOffset (setOffset offsets index dx dy) index =
      ⟨(getOffset offsets index).x + dx, (getOffset offsets index).y + dy⟩ ∧
    getOffset (setOffset (setOffset offsets index dx dy) index dx' dy') index =
      ⟨(getOffset offsets index).x + dx + dx',
        (getOffset offsets index).y + dy + dy'⟩ ∧
    resetOffset (setOffset offsets index dx dy) index index = none ∧
    compositeAt img
        { config with
          frameOffsets := resetOffset (setOffset offsets index dx dy) index }
        dims index px py =
      compositeAt img { config with frameOffsets := fun _ => none }
        dims index px py := by
  refine ⟨by simp [setOffset, getOffset], by simp [setOffset, getOffset],
    by simp [resetOffset], ?_⟩
  simp [compositeAt, sampleOrigin, getOffset, resetOffset]

/-- C10 (implicit): after chroma keying any non-empty buffer, the top-left
pixel is unconditionally the magenta key color at alpha 255, because the
reference is sampled from that very pixel and trivially matches itself. -/
theorem chroma_key_top_left_always_keyed (data : List Pixel)
    (h : data ≠ []) : (applyChromaKey data).head? = some keyColorPixel := by
  match data with
  | [] => exact absurd rfl h
  | bg :: rest =>
    simp [applyChromaKey, keyPixel, matchesKey]

/-- Witness for C10 on a one-pixel buffer holding foreground content. -/
theorem chroma_key_top_left_always_keyed_witness :
    (applyChromaKey [⟨10, 20, 30, 255⟩]).head? = some keyColorPixel :=
  chroma_key_top_left_always_keyed [⟨10, 20, 30, 255⟩] (by simp)

/-- C4: chroma keying samples the reference from the buffer's top-left
pixel; a pixel is rewritten to the key color at full opacity precisely when
every channel is within the tolerance of 20 of the reference or its alpha
is below 10, and a pixel outside tolerance with alpha ≥ 10 passes through
unchanged. -/
theorem chroma_key_pixel_rule (data : List Pixel) (bg p : Pixel) (j : Nat)
    (hbg : data.head? = some bg) (hj : data[j]? = some p) :
    (matchesKey bg p → (applyChromaKey data)[j]? = some keyColorPixel) ∧
    (¬ matchesKey bg p → (applyChromaKey data)[j]? = some p) ∧
    ((¬((((p.r : Int) - bg.r).natAbs < 20 ∧ ((p.g : Int) - bg.g).natAbs < 20 ∧
          ((p.b : Int) - bg.b).natAbs < 20)) ∧ 10 ≤ p.a) →
      (applyChromaKey data)[j]? = some p) := by
  match data with
  | [] => simp at hbg
  | first :: rest =>
    have hfst : first = bg := by simpa using hbg
    subst hfst
    have hmap : applyChromaKey (first :: rest) =
        (first :: rest).map (keyPixel first) := rfl
    rw [hmap, List.getElem?_map, hj]
    refine ⟨fun hmatch => ?_, fun hnot => ?_, fun hfar => ?_⟩
    · simp [keyPixel, hmatch]
    · simp [keyPixel, hnot]
    · have hnot : ¬ matchesKey first p := by
        intro hmatch
        rcases hmatch with hclose | halpha
        · exact hfar.1 hclose
        · omega
      simp [keyPixel, hnot]

/-- Witness for C4: reference `(100,100,100)`, a far pixel passes through. -/
theorem chroma_key_pixel_rule_witness :
    (applyChromaKey [⟨100, 100, 100, 255⟩, ⟨100, 90, 100, 255⟩,
        ⟨200, 200, 200, 255⟩])[2]? = some ⟨200, 200, 200, 255⟩ :=
  (chroma_key_pixel_rule
      [⟨100, 100, 100, 255⟩, ⟨100, 90, 100, 255⟩, ⟨200, 200, 200, 255⟩]
      ⟨100, 100, 100, 255⟩ ⟨200, 200, 200, 255⟩ 2 rfl rfl).2.1 (by decide)

/-- C2: for every frame with resolved cell `(row, col)` and stored offset
`(dx, dy)`, the compositor's sample rectangle has origin
`(col*cellW - dx, row*cellH - dy)` (so a positive offset moves the sampled
window up/left); the preview player computes the identical origin; a sample
coordinate outside `[0, width) × [0, height)` yields the canvas background
(white when transparency mode is on, fully transparent otherwise); an
in-range coordinate samples the source image. -/
theorem compositor_sample_rectangle (img : Rat → Rat → Pixel)
    (config : SpriteConfig) (dims : ImageDimensions) (index : Nat) :
    (∀ row col dx dy,
      indexToCell config.direction config.rows config.cols index = (row, col) →
      getOffset config.frameOffsets index = ⟨dx, dy⟩ →
      sampleOrigin config dims index =
        (col * (dims.width / config.cols) - dx,
          row * (dims.height / config.rows) - dy)) ∧
    previewSampleOrigin config dims index = sampleOrigin config dims index ∧
    (∀ px py,
      ¬(0 ≤ (sampleOrigin config dims index).1 + px ∧
          (sampleOrigin config dims index).1 + px < dims.width ∧
          0 ≤ (sampleOrigin config dims index).2 + py ∧
          (sampleOrigin config dims index).2 + py < dims.height) →
      compositeAt img config dims index px py =
        (if config.autoTransparent then whitePixel else transparentPixel)) ∧
    (∀ px py,
      (0 ≤ (sampleOrigin config dims index).1 + px ∧
          (sampleOrigin config dims index).1 + px < dims.width ∧
          0 ≤ (sampleOrigin config dims index).2 + py ∧
          (sampleOrigin config dims index).2 + py < dims.height) →
      compositeAt img config dims index px py =
        img ((sampleOrigin config dims index).1 + px)
          ((sampleOrigin config dims index).2 + py)) := by
  refine ⟨fun row col dx dy hcell hoff => ?_, rfl,
    fun px py hout => ?_, fun px py hin => ?_⟩
  · simp only [sampleOrigin, hcell, hoff]
  · simp only [compositeAt, if_neg hout]
  · simp only [compositeAt, if_pos hin]

/-- Scenario-E-style witness for C2: a 2×2 grid over a 20×20 source with
offset `(5, 0)` on frame 0 pushes the sample origin to `x = -5`, and the
leftmost destination column samples out of bounds, yielding the white
background (transparency mode on). -/
theorem compositor_sample_rectangle_witness :
    compositeAt (fun _ _ => ⟨1, 2, 3, 255⟩)
        { rows := 2, cols := 2, totalFrames := 4, fps := 12, scale := 1,
          autoTransparent := true, direction := .row,
          frameOffsets := fun j => if j = 0 then some ⟨5, 0⟩ else none,
          excludedFrames := [] }
        ⟨20, 20⟩ 0 0 0 = whitePixel := by
  have h := (compositor_sample_rectangle (fun _ _ => ⟨1, 2, 3, 255⟩)
      { rows := 2, cols := 2, totalFrames := 4, fps := 12, scale := 1,
        autoTransparent := true, direction := .row,
        frameOffsets := fun j => if j = 0 then some ⟨5, 0⟩ else none,
        excludedFrames := [] }
      ⟨20, 20⟩ 0).2.2.1 0 0 (by norm_num [sampleOrigin, getOffset, indexToCell])
  simpa using h

/-- C5: when every index in `[0, totalFrames)` is excluded, `generateGif`
fails with the no-frames error and submits nothing to the codec; on success
the submitted frame indices are exactly the non-excluded indices below
`totalFrames`, in strictly ascending order. -/
theorem assembly_no_frames_and_order (config : SpriteConfig)
    (dims : ImageDimensions) :
    ((∀ i < config.totalFrames, i ∈ config.excludedFrames) →
      generateGif config dims = .error "No valid frames to render") ∧
    (∀ spec, generateGif config dims = .ok spec →
      spec.frames.map Submission.frameIndex = framesToRender config ∧
      List.Pairwise (· < ·) (spec.frames.map Submission.frameIndex) ∧
      ∀ s ∈ spec.frames, s.frameIndex < config.totalFrames ∧
        s.frameIndex ∉ config.excludedFrames) := by
  constructor
  · intro hall
    have hnil : framesToRender config = [] := by
      rw [framesToRender, List.filter_eq_nil_iff]
      intro i hi
      simp only [List.mem_range] at hi
      simp [hall i hi]
    simp [generateGif, hnil]
  · intro spec hspec
    have hidx : spec.frames.map Submission.frameIndex = framesToRender config := by
      by_cases hlen : (framesToRender config).length = 0
      · simp [generateGif, hlen] at hspec
      · simp only [generateGif, if_neg hlen, Except.ok.injEq] at hspec
        subst hspec
        rw [List.map_map]
        exact List.map_id'' (fun _ => rfl) _
    refine ⟨hidx, ?_, ?_⟩
    · rw [hidx, framesToRender]
      exact (List.pairwise_lt_range _).filter _
    · intro s hs
      have hmem : s.frameIndex ∈ framesToRender config := by
        rw [← hidx]
        exact List.mem_map_of_mem Submission.frameIndex hs
      rw [framesToRender, List.mem_filter, List.mem_range] at hmem
      refine ⟨hmem.1, fun hexc => ?_⟩
      have := hmem.2
      simp [List.contains] at this
      exact this hexc

/-- Witness for C5 on a group with both frames excluded. -/
theorem assembly_no_frames_and_order_witness :
    generateGif
        { rows := 1, cols := 2, totalFrames := 2, fps := 12, scale := 1,
          autoTransparent := false, direction := .row,
          frameOffsets := fun _ => none, excludedFrames := [0, 1] }
        ⟨20, 10⟩ = .error "No valid frames to render" :=
  (assembly_no_frames_and_order
      { rows := 1, cols := 2, totalFrames := 2, fps := 12, scale := 1,
        autoTransparent := false, direction := .row,
        frameOffsets := fun _ => none, excludedFrames := [0, 1] }
      ⟨20, 10⟩).1 (by decide)

/-- C7: every successful assembly declares output dimensions exactly
`cellW × cellH` with `cellW = width / cols`, `cellH = height / rows`;
the single shared scratch canvas truncates those values once (consistent
rounding for every frame); the result is independent of the configured
scale; and a fractional cell size never causes a rejection — assembly
succeeds whenever at least one frame survives exclusion. -/
theorem output_buffer_dimensions (config : SpriteConfig)
    (dims : ImageDimensions) :
    (∀ spec, generateGif config dims = .ok spec →
      spec.width = dims.width / config.cols ∧
      spec.height = dims.height / config.rows ∧
      spec.canvasWidth = ⌊dims.width / config.cols⌋.toNat ∧
      spec.canvasHeight = ⌊dims.height / config.rows⌋.toNat) ∧
    (∀ n, generateGif { config with scale := n } dims =
      generateGif config dims) ∧
    (framesToRender config ≠ [] →
      generateGif config dims =
        .ok
          { width := dims.width / config.cols
            height := dims.height / config.rows
            canvasWidth := ⌊dims.width / config.cols⌋.toNat
            canvasHeight := ⌊dims.height / config.rows⌋.toNat
            frames := (framesToRender config).map
              (fun i => ⟨i, 1000 / (config.fps : Rat)⟩) }) := by
  refine ⟨fun spec hspec => ?_, fun n => rfl, fun hne => ?_⟩
  · by_cases hlen : (framesToRender config).length = 0
    · simp [generateGif, hlen] at hspec
    · simp only [generateGif, if_neg hlen, Except.ok.injEq] at hspec
      subst hspec
      exact ⟨rfl, rfl, rfl, rfl⟩
  · have hlen : ¬(framesToRender config).length = 0 := by
      simpa [List.length_eq_zero] using hne
    simp only [generateGif, if_neg hlen]

/-- Witness for C7 on a 2×2 grid over a 25×25 source, whose cell size
`12.5` is fractional: assembly succeeds, the declared frame size is exactly
`12.5 × 12.5`, and the canvas truncates it to `12 × 12`. -/
theorem output_buffer_dimensions_witness :
    generateGif
        { rows := 2, cols := 2, totalFrames := 1, fps := 12, scale := 2,
          autoTransparent := true, direction := .row,
          frameOffsets := fun _ => none, excludedFrames := [] }
        ⟨25, 25⟩ =
      .ok
        { width := 25 / 2, height := 25 / 2, canvasWidth := 12,
          canvasHeight := 12, frames := [⟨0, 1000 / 12⟩] } := by
  have h := (output_buffer_dimensions
      { rows := 2, cols := 2, totalFrames := 1, fps := 12, scale := 2,
        autoTransparent := true, direction := .row,
        frameOffsets := fun _ => none, excludedFrames := [] }
      ⟨25, 25⟩).2.2 (by decide)
  rw [h]
  have hfloor : ⌊(25 : ℚ) / 2⌋ = 12 := by
    rw [Int.floor_eq_iff]
    norm_num
  norm_num [framesToRender, hfloor]
  exact ⟨rfl, rfl⟩

/-- C3: the playback clock's valid-frame list is the ascending list of
non-excluded indices below `totalFrames`; when it is empty nothing is
rendered (no failure); otherwise the active frame is
`validFrames[⌊t / (1000/fps)⌋ % validFrames.length]`, is never an excluded
index, and is periodic with period `validFrames.length * (1000/fps)`
milliseconds. -/
theorem playback_clock_spec (config : SpriteConfig) (time : Rat)
    (hfps : 1 ≤ config.fps) (htime : 0 ≤ time) :
    List.Pairwise (· < ·) (getValidFrames config) ∧
    (∀ i ∈ getValidFrames config,
      i < config.totalFrames ∧ i ∉ config.excludedFrames) ∧
    (∀ i, i < config.totalFrames → i ∉ config.excludedFrames →
      i ∈ getValidFrames config) ∧
    (getValidFrames config = [] → activeFrame config time = none) ∧
    (getValidFrames config ≠ [] →
      activeFrame config time =
        (getValidFrames config)[(⌊time / frameInterval config⌋).toNat %
          (getValidFrames config).length]?) ∧
    (∀ i, activeFrame config time = some i → i ∉ config.excludedFrames) ∧
    activeFrame config
        (time + ((getValidFrames config).length : Rat) * frameInterval config) =
      activeFrame config time := by
  have hmem : ∀ i ∈ getValidFrames config,
      i < config.totalFrames ∧ i ∉ config.excludedFrames := by
    intro i hi
    rw [getValidFrames, List.mem_filter, List.mem_range] at hi
    refine ⟨hi.1, ?_⟩
    simpa [List.contains] using hi.2
  have hcomplete : ∀ i, i < config.totalFrames → i ∉ config.excludedFrames →
      i ∈ getValidFrames config := by
    intro i hlt hnot
    rw [getValidFrames, List.mem_filter, List.mem_range]
    exact ⟨hlt, by simpa [List.contains] using hnot⟩
  refine ⟨(List.pairwise_lt_range _).filter _, hmem, hcomplete,
    fun h => by simp [activeFrame, h], fun h => ?_, fun i hi => ?_, ?_⟩
  · have hlen : ¬(getValidFrames config).length = 0 := by
      simpa [List.length_eq_zero] using h
    simp [activeFrame, hlen]
  · by_cases hlen : (getValidFrames config).length = 0
    · simp [activeFrame, hlen] at hi
    · simp only [activeFrame, if_neg hlen] at hi
      exact (hmem i (List.getElem?_mem hi)).2
  · by_cases hlen : (getValidFrames config).length = 0
    · simp [activeFrame, hlen]
    · have hfpsQ : (0 : Rat) < (config.fps : Rat) := by
        have hpos : 0 < config.fps := hfps
        exact_mod_cast hpos
      have hc : (0 : Rat) < frameInterval config := by
        rw [frameInterval]
        exact div_pos (by norm_num) hfpsQ
      have hkey : (time + ((getValidFrames config).length : Rat) *
            frameInterval config) / frameInterval config =
          time / frameInterval config +
            ((getValidFrames config).length : Rat) := by
        rw [add_div, mul_div_assoc, div_self hc.ne', mul_one]
      have hfloor2 : ⌊(time + ((getValidFrames config).length : Rat) *
            frameInterval config) / frameInterval config⌋ =
          ⌊time / frameInterval config⌋ + (getValidFrames config).length := by
        rw [hkey, Int.floor_add_nat]
      have hnonneg : 0 ≤ ⌊time / frameInterval config⌋ :=
        Int.floor_nonneg.mpr (div_nonneg htime hc.le)
      have htn : (⌊time / frameInterval config⌋ +
            ((getValidFrames config).length : Int)).toNat =
          ⌊time / frameInterval config⌋.toNat +
            (getValidFrames config).length := by omega
      simp only [activeFrame, if_neg hlen, hfloor2, htn, Nat.add_mod_right]

/-- Witness for C3, the spec's Scenario C: `fps = 12`, frame 1 excluded,
valid frames `[0, 2, 3]`; at `t = 84 ms` (just past one 83.3 ms tick) the
active frame is 2. -/
theorem playback_clock_spec_witness :
    activeFrame
        { rows := 2, cols := 2, totalFrames := 4, fps := 12, scale := 1,
          autoTransparent := true, direction := .row,
          frameOffsets := fun _ => none, excludedFrames := [1] } 84 =
      some 2 := by
  have h := (playback_clock_spec
      { rows := 2, cols := 2, totalFrames := 4, fps := 12, scale := 1,
        autoTransparent := true, direction := .row,
        frameOffsets := fun _ => none, excludedFrames := [1] } 84
      (by decide) (by norm_num)).2.2.2.2.1 (by decide)
  rw [h]
  have hfi : frameInterval
      { rows := 2, cols := 2, totalFrames := 4, fps := 12, scale := 1,
        autoTransparent := true, direction := .row,
        frameOffsets := fun _ => none, excludedFrames := [1] } = 250 / 3 := by
    norm_num [frameInterval]
  have hfloor : ⌊(84 : Rat) / (250 / 3)⌋ = 1 := by
    rw [Int.floor_eq_iff]
    norm_num
  rw [hfi, hfloor]
  decide

/-- Helper: full characterization of a `retryOperation` run for an
arbitrary operation: at least one and at most `retries + 1` invocations;
the sleep delays are `delay, delay*2, delay*4, …`, one before each retry;
every invocation that was followed by a retry had failed transiently; the
final outcome is exactly the outcome of the last invocation; and the run
stops short of exhausting its retries only when that last outcome is not a
transient failure. -/
theorem retryOperation_spec {T : Type} (op : Nat → Outcome T) :
    ∀ (retries : Nat) (delay : Rat) (attempt : Nat),
      1 ≤ (retryOperation op retries delay attempt).attempts ∧
      (retryOperation op retries delay attempt).attempts ≤ retries + 1 ∧
      (retryOperation op retries delay attempt).delays =
        (List.range ((retryOperation op retries delay attempt).attempts - 1)).map
          (fun k => delay * 2 ^ k) ∧
      (∀ k, k + 1 < (retryOperation op retries delay attempt).attempts →
        op (attempt + k) = .failure true) ∧
      (retryOperation op retries delay attempt).result =
        op (attempt + ((retryOperation op retries delay attempt).attempts - 1)) ∧
      ((retryOperation op retries delay attempt).attempts < retries + 1 →
        op (attempt + ((retryOperation op retries delay attempt).attempts - 1)) ≠
          .failure true) := by
  intro retries
  induction retries with
  | zero =>
    intro delay attempt
    cases hop : op attempt with
    | success v =>
      have ht : retryOperation op 0 delay attempt = ⟨1, [], .success v⟩ := by
        rw [retryOperation, hop]
      refine ⟨?_, ?_, ?_, ?_, ?_, ?_⟩ <;> simp only [ht]
      · exact le_refl 1
      · exact le_refl 1
      · simp
      · intro k hk
        simp at hk
      · simp [hop]
      · intro h
        simp at h
    | failure b =>
      have ht : retryOperation op 0 delay attempt = ⟨1, [], .failure b⟩ := by
        rw [retryOperation, hop]
        cases b <;> simp
      refine ⟨?_, ?_, ?_, ?_, ?_, ?_⟩ <;> simp only [ht]
      · exact le_refl 1
      · exact le_refl 1
      · simp
      · intro k hk
        simp at hk
      · simp [hop]
      · intro h
        simp at h
  | succ r ih =>
    intro delay attempt
    cases hop : op attempt with
    | success v =>
      have ht : retryOperation op (r + 1) delay attempt = ⟨1, [], .success v⟩ := by
        rw [retryOperation, hop]
      refine ⟨?_, ?_, ?_, ?_, ?_, ?_⟩ <;> simp only [ht]
      · exact le_refl 1
      · exact Nat.succ_le_succ (Nat.zero_le _)
      · simp
      · intro k hk
        simp at hk
      · simp [hop]
      · intro _
        simp [hop]
    | failure b =>
      cases b with
      | false =>
        have ht : retryOperation op (r + 1) delay attempt =
            ⟨1, [], .failure false⟩ := by
          rw [retryOperation, hop]
          simp
        refine ⟨?_, ?_, ?_, ?_, ?_, ?_⟩ <;> simp only [ht]
        · exact le_refl 1
        · exact Nat.succ_le_succ (Nat.zero_le _)
        · simp
        · intro k hk
          simp at hk
        · simp [hop]
        · intro _
          simp [hop]
      | true =>
        have ht : retryOperation op (r + 1) delay attempt =
            ⟨(retryOperation op r (delay * 2) (attempt + 1)).attempts + 1,
              delay :: (retryOperation op r (delay * 2) (attempt + 1)).delays,
              (retryOperation op r (delay * 2) (attempt + 1)).result⟩ := by
          rw [retryOperation, hop]
          simp
        obtain ⟨ih1, ih2, ih3, ih4, ih5, ih6⟩ := ih (delay * 2) (attempt + 1)
        refine ⟨?_, ?_, ?_, ?_, ?_, ?_⟩ <;> simp only [ht]
        · exact Nat.succ_le_succ (Nat.zero_le _)
        · exact Nat.succ_le_succ ih2
        · rw [ih3]
          obtain ⟨m, hm⟩ : ∃ m,
              (retryOperation op r (delay * 2) (attempt + 1)).attempts = m + 1 :=
            ⟨(retryOperation op r (delay * 2) (attempt + 1)).attempts - 1,
              by omega⟩
          rw [hm]
          simp only [Nat.add_sub_cancel]
          rw [List.range_succ_eq_map, List.map_cons, List.map_map]
          congr 1
          · simp
          · exact List.map_congr_left (fun a _ => by
              simp only [Function.comp, pow_succ]
              ring)
        · intro k hk
          cases k with
          | zero => simpa using hop
          | succ j =>
            have hj : j + 1 <
                (retryOperation op r (delay * 2) (attempt + 1)).attempts := by
              omega
            have harith : attempt + (j + 1) = attempt + 1 + j := by omega
            rw [harith]
            exact ih4 j hj
        · have harith : attempt +
              ((retryOperation op r (delay * 2) (attempt + 1)).attempts + 1 - 1) =
              attempt + 1 +
                ((retryOperation op r (delay * 2) (attempt + 1)).attempts - 1) := by
            omega
          rw [harith]
          exact ih5
        · intro h
          have harith : attempt +
              ((retryOperation op r (delay * 2) (attempt + 1)).attempts + 1 - 1) =
              attempt + 1 +
                ((retryOperation op r (delay * 2) (attempt + 1)).attempts - 1) := by
            omega
          rw [harith]
          exact ih6 (by omega)

/-- C8 counterexample: an operation that always fails transiently is
invoked 4 times by `retryOperation` at its defaults, not at most 3 — the
code performs 3 *retries* after the initial attempt. -/
theorem retry_exceeds_three_attempts :
    (retryOperationDefault (fun _ => Outcome.failure (T := Unit) true)).attempts
        = 4 ∧
    ¬(retryOperationDefault
        (fun _ => Outcome.failure (T := Unit) true)).attempts ≤ 3 := by
  have h3 : retryOperation (fun _ => Outcome.failure (T := Unit) true)
      0 8000 3 = ⟨1, [], .failure true⟩ := by
    rw [retryOperation]
    simp
  have h2 : retryOperation (fun _ => Outcome.failure (T := Unit) true)
      1 4000 2 = ⟨2, [4000], .failure true⟩ := by
    rw [retryOperation]
    norm_num [h3]
  have h1 : retryOperation (fun _ => Outcome.failure (T := Unit) true)
      2 2000 1 = ⟨3, [2000, 4000], .failure true⟩ := by
    rw [retryOperation]
    norm_num [h2]
  have h0 : retryOperationDefault (fun _ => Outcome.failure (T := Unit) true)
      = ⟨4, [1000, 2000, 4000], .failure true⟩ := by
    rw [retryOperationDefault, retryOperation]
    norm_num [h1]
  rw [h0]
  exact ⟨rfl, by decide⟩

/-- C8 (amended): at its defaults the caller makes at most 4 invocations
of the operation — one initial attempt plus up to 3 retries; the sleep
delay before the `(k+1)`-st retry is `1000 * 2^k` ms (exponential backoff
starting at 1 second and doubling each attempt); a retry only ever follows
a transiently-failing invocation, so a non-transient error (or a success)
at any point in the run ends it immediately, with no further retry; the
final outcome is exactly the outcome of the last invocation; and the run
stops before its 4th invocation only on such a non-transient outcome. -/
theorem retry_policy {T : Type} (op : Nat → Outcome T) :
    1 ≤ (retryOperationDefault op).attempts ∧
    (retryOperationDefault op).attempts ≤ 4 ∧
    (retryOperationDefault op).delays =
      (List.range ((retryOperationDefault op).attempts - 1)).map
        (fun k => (1000 : Rat) * 2 ^ k) ∧
    (∀ k, k + 1 < (retryOperationDefault op).attempts →
      op k = .failure true) ∧
    (retryOperationDefault op).result =
      op ((retryOperationDefault op).attempts - 1) ∧
    ((retryOperationDefault op).attempts < 4 →
      op ((retryOperationDefault op).attempts - 1) ≠ .failure true) := by
  obtain ⟨h1, h2, h3, h4, h5, h6⟩ := retryOperation_spec op 3 1000 0
  refine ⟨h1, h2, h3, fun k hk => ?_, ?_, fun h => ?_⟩
  · simpa using h4 k hk
  · simpa using h5
  · simpa using h6 h

/-- Witness for C8 (amended) on a mixed trace — a transient failure
followed by a non-transient one: the retried invocation 0 was transient,
and the final outcome is the non-transient error of invocation 1,
propagated immediately. -/
theorem retry_policy_witness :
    (fun k => if k = 0 then Outcome.failure (T := Unit) true
        else Outcome.failure false) 0 = Outcome.failure true ∧
    (retryOperationDefault
        (fun k => if k = 0 then Outcome.failure (T := Unit) true
          else Outcome.failure false)).result = Outcome.failure false := by
  constructor
  · exact (retry_policy (fun k => if k = 0 then Outcome.failure (T := Unit) true
      else Outcome.failure false)).2.2.2.1 0 (by decide)
  · rw [(retry_policy (fun k => if k = 0 then Outcome.failure (T := Unit) true
      else Outcome.failure false)).2.2.2.2.1]
    decide

/-- A concrete configuration used to instantiate group-level statements. -/
def demoConfig : SpriteConfig :=
  { rows := 1, cols := 1, totalFrames := 1, fps := 12, scale := 1,
    autoTransparent := true, direction := .row,
    frameOffsets := fun _ => none, excludedFrames := [] }

/-- A concrete group whose id is `"g123456"`. -/
def demoGroup : NodeGroup :=
  { id := "g123456", imageUrl := some "blob:sheet",
    dimensions := ⟨10, 10⟩, config := demoConfig }

/-- A concrete app state holding `demoGroup`, one canvas node for it, and
one exported GIF asset produced from it by `generateGifAsset`. -/
def demoState : AppState :=
  addGifAsset
    { groups := fun k => if k = "g123456" then some demoGroup else none
      nodes := [⟨"n1", "g123456"⟩]
      selectedGroupId := some "g123456"
      savedAssets := [] }
    demoGroup "a1" "blob:gif" 111

/-- C9 counterexample: deleting the group removes the group record and its
nodes, but the exported GIF asset produced from that group (named after its
id) is still held in `savedAssets` afterwards — `deleteGroup` never touches
the asset list. -/
theorem delete_group_retains_asset_counterexample :
    (deleteGroup demoState "g123456").groups "g123456" = none ∧
    (deleteGroup demoState "g123456").nodes = [] ∧
    gifAssetFor demoGroup "a1" "blob:gif" 111 ∈
      (deleteGroup demoState "g123456").savedAssets ∧
    (gifAssetFor demoGroup "a1" "blob:gif" 111).name = "sprite-g123.gif" := by
  refine ⟨by simp [deleteGroup], ?_, ?_, rfl⟩
  · simp [deleteGroup, demoState, addGifAsset]
  · simp [deleteGroup, demoState, addGifAsset]

/-- C9 (amended): explicit deletion removes the group record, removes every
canvas node of that group, leaves other groups untouched, clears the
selection when it pointed at the deleted group — but leaves the exported
assets' in-memory handles (`savedAssets`) exactly as they were, evicting
nothing. -/
theorem delete_group_behavior (s : AppState) (groupId : String) :
    (deleteGroup s groupId).groups groupId = none ∧
    (∀ k, k ≠ groupId → (deleteGroup s groupId).groups k = s.groups k) ∧
    (∀ n ∈ (deleteGroup s groupId).nodes, n.groupId ≠ groupId) ∧
    (deleteGroup s groupId).selectedGroupId ≠ some groupId ∧
    (deleteGroup s groupId).savedAssets = s.savedAssets := by
  refine ⟨by simp [deleteGroup], fun k hk => by simp [deleteGroup, hk],
    fun n hn => ?_, ?_, rfl⟩
  · rw [deleteGroup] at hn
    simp only [List.mem_filter] at hn
    simpa using hn.2
  · by_cases h : s.selectedGroupId = some groupId <;> simp [deleteGroup, h]

/-- Witness for C9 (amended) at the concrete state. -/
theorem delete_group_behavior_witness :
    (deleteGroup demoState "g123456").groups "zzz" =
      demoState.groups "zzz" :=
  (delete_group_behavior demoState "g123456").2.1 "zzz" (by decide)

end XULIEZHEN
